import Mathlib

/-!
Shallow embedding of the telemetry subsystem of `bedrock`
(`src/bedrock/src/telemetry/log/settings.rs` and the contracts exercised by
`src/bedrock/tests/telemetry_server.rs`), together with proofs of the
specification's claims about it.

Parts of the repository that the claims depend on but whose code is not in
the provided fragment (the `slog::Level` string conversions, the telemetry
HTTP server and the memory-profiler singleton) are modelled from the spec;
each such definition carries a doc comment starting `Modelled from the
spec:`.
-/

namespace Bedrock

/-- Severity levels of `slog::Level` (re-exported by `settings.rs` as
`pub use slog::Level`): `Critical < Error < Warning < Info < Debug < Trace`. -/
inductive Level where
  | Critical
  | Error
  | Warning
  | Info
  | Debug
  | Trace
deriving DecidableEq

/-- Modelled from the spec: the canonical name string of each verbosity
level (`slog::Level::as_str` is in the external `slog` crate, not in the
fragment); the spec says a level "serializes to/from its canonical
lowercase/mixed-case name string" and enumerates the levels
`Critical, Error, Warning, Info, Debug, Trace`. -/
def Level.as_str : Level → String
  | .Critical => "Critical"
  | .Error => "Error"
  | .Warning => "Warning"
  | .Info => "Info"
  | .Debug => "Debug"
  | .Trace => "Trace"

/-- The six levels, in severity order. -/
def Level.all : List Level :=
  [.Critical, .Error, .Warning, .Info, .Debug, .Trace]

/-- Modelled from the spec: `slog::Level::from_str` (external `slog` crate,
not in the fragment) recognizes exactly the canonical level names and
fails on every other string. -/
def Level.from_str (s : String) : Option Level :=
  Level.all.find? (fun l => l.as_str == s)

/-- Verbosity level of the log (`pub struct LogVerbosity(pub Level)`). -/
structure LogVerbosity where
  level : Level
deriving DecidableEq

/-- Rust `impl Default for LogVerbosity`: `Self(Level::Warning)`. -/
instance : Inhabited LogVerbosity := ⟨⟨.Warning⟩⟩

/-- Rust `impl Deserialize for LogVerbosity`: deserialize a string, run
`Level::from_str` on it, and map a failure to the custom error
"incorrect verbosity level" (a validation error); no default is ever
substituted and the function is total (it never panics). -/
def LogVerbosity.deserialize (s : String) : Except String LogVerbosity :=
  match Level.from_str s with
  | some l => .ok ⟨l⟩
  | none => .error "incorrect verbosity level"

/-- Rust `impl Serialize for LogVerbosity`: `s.serialize_str(self.0.as_str())`. -/
def LogVerbosity.serialize (v : LogVerbosity) : String :=
  v.level.as_str

/-- Log output destination (`enum LogOutput`); `PathBuf` is embedded as a
string. -/
inductive LogOutput where
  | Terminal
  | File (path : String)
deriving DecidableEq

/-- Rust `impl Default for LogOutput`: `LogOutput::File("./proxy.log".into())`. -/
instance : Inhabited LogOutput := ⟨.File "./proxy.log"⟩

/-- Format of the log output (`enum LogFormat`). -/
inductive LogFormat where
  | Text
  | Json
deriving DecidableEq

/-- Rust attribute-selected default `Text` on `LogFormat`. -/
instance : Inhabited LogFormat := ⟨.Text⟩

/-- Logging settings (`struct LoggingSettings`); all fields are `pub`, so
any record value is constructible. -/
structure LoggingSettings where
  output : LogOutput
  format : LogFormat
  verbosity : LogVerbosity
  redact_keys : List String
deriving DecidableEq

/-- The derived `Default` for `LoggingSettings` is field-wise;
`Vec::default()` is the empty vector. -/
instance : Inhabited LoggingSettings :=
  ⟨{ output := default, format := default, verbosity := default,
     redact_keys := [] }⟩

/-- A `LoggingSettings` value with duplicated `redact_keys`, constructible
because every field of the struct is `pub` and no constructor or
deserializer deduplicates the list. -/
def duplicatedRedactSettings : LoggingSettings :=
  { output := default, format := default, verbosity := default,
    redact_keys := ["password", "password"] }

/-- C1: for every string `s` recognized as a verbosity level name,
serializing the `LogVerbosity` obtained by deserializing `s` yields `s`
again. -/
theorem serialize_deserialize_id (s : String) (v : LogVerbosity)
    (h : LogVerbosity.deserialize s = .ok v) : v.serialize = s := by
  unfold LogVerbosity.deserialize at h
  cases hf : Level.from_str s with
  | none => rw [hf] at h; exact absurd h (by simp)
  | some l =>
    rw [hf] at h
    have hv : v = ⟨l⟩ := by
      have := h
      simp only [Except.ok.injEq] at this
      exact this.symm
    have hf' : Level.all.find? (fun x => x.as_str == s) = some l := hf
    have hp : (l.as_str == s) = true :=
      List.find?_some (p := fun x => Level.as_str x == s) hf'
    have : l.as_str = s := eq_of_beq hp
    rw [hv]
    exact this

/-- Witness for C1 at the concrete name "Warning". -/
theorem serialize_deserialize_id_witness :
    LogVerbosity.deserialize "Warning" = .ok ⟨.Warning⟩ ∧
      LogVerbosity.serialize ⟨.Warning⟩ = "Warning" :=
  ⟨rfl, serialize_deserialize_id "Warning" ⟨.Warning⟩ rfl⟩

/-- C2: for every valid verbosity level `v`, deserializing the string
produced by serializing `v` yields `v` back. -/
theorem deserialize_serialize_id (v : LogVerbosity) :
    LogVerbosity.deserialize v.serialize = .ok v := by
  obtain ⟨l⟩ := v
  cases l <;> rfl

/-- C3: for every string that is not a recognized verbosity level name,
deserialization returns the validation error "incorrect verbosity level";
the function is total (no panic) and never substitutes a default level. -/
theorem deserialize_unrecognized_errors (s : String)
    (h : ∀ l ∈ Level.all, l.as_str ≠ s) :
    LogVerbosity.deserialize s = .error "incorrect verbosity level" := by
  unfold LogVerbosity.deserialize
  have hf : Level.from_str s = none := by
    unfold Level.from_str
    rw [List.find?_eq_none]
    intro l hl
    simp only [Bool.not_eq_true, beq_eq_false_iff_ne, ne_eq]
    exact h l hl
  rw [hf]

/-- Witness for C3 at the concrete unrecognized string "bogus". -/
theorem deserialize_unrecognized_errors_witness :
    (∀ l ∈ Level.all, l.as_str ≠ "bogus") ∧
      LogVerbosity.deserialize "bogus" = .error "incorrect verbosity level" :=
  ⟨by decide, deserialize_unrecognized_errors "bogus" (by decide)⟩

/-- C4: the default `LoggingSettings` has output `File("./proxy.log")`,
format `Text`, verbosity `Warning` and an empty `redact_keys` list. -/
theorem default_logging_settings :
    (default : LoggingSettings).output = .File "./proxy.log" ∧
      (default : LoggingSettings).format = .Text ∧
      (default : LoggingSettings).verbosity = ⟨.Warning⟩ ∧
      (default : LoggingSettings).redact_keys = [] := by
  refine ⟨rfl, rfl, rfl, rfl⟩

/-- Counterexample to C5: a constructible `LoggingSettings` (all struct
fields are `pub`, nothing validates the list) whose `redact_keys` has a
duplicate entry. -/
theorem redact_keys_duplicates_possible :
    ¬ duplicatedRedactSettings.redact_keys.Nodup := by
  decide

/-- C5 amended: the default `LoggingSettings` has duplicate-free (empty)
`redact_keys`; uniqueness is not enforced for arbitrary constructed
values. -/
theorem default_redact_keys_nodup :
    (default : LoggingSettings).redact_keys.Nodup := by
  decide

/-- HTTP methods relevant to the telemetry surface. -/
inductive Method where
  | GET
  | POST
  | PUT
  | DELETE
deriving DecidableEq

/-- An HTTP request, reduced to the data the route table dispatches on. -/
structure Request where
  path : String
  method : Method

/-- An HTTP response: status code and body. -/
structure Response where
  status : Nat
  body : String
deriving DecidableEq

/-- A caller-supplied route (`TelemetryServerRoute`): path, allowed
methods, and the handler producing the response. -/
structure TelemetryServerRoute where
  path : String
  methods : List Method
  handler : Request → Response

/-- A registered metric, as the metrics-registry collaborator presents it
to the exposition endpoint: name, help text, type and current sample. -/
structure Metric where
  name : String
  help : String
  mtype : String
  sample : String

/-- The metrics registry is a list of registered metrics. -/
structure MetricsRegistry where
  metrics : List Metric

/-- Modelled from the spec: one exposition block for a metric — a
`# HELP` line, a `# TYPE` line and the sample line (glossary: "each
preceded by `# HELP`/`# TYPE` metadata lines"). -/
def helpBlock (m : Metric) : String :=
  "# HELP " ++ (m.name ++ (" " ++ (m.help ++ ("\n" ++
    ("# TYPE " ++ (m.name ++ (" " ++ (m.mtype ++ ("\n" ++
      (m.name ++ (" " ++ (m.sample ++ "\n"))))))))))))

/-- Modelled from the spec: the `/metrics` exposition document — the
blocks of every registered metric, terminated by the literal sentinel
line `# EOF`. -/
def renderMetrics (reg : MetricsRegistry) : String :=
  reg.metrics.foldr (fun m acc => helpBlock m ++ acc) "# EOF\n"

/-- Boolean check that `p` is a prefix of `s`, at the character level. -/
def strStartsWith (p s : String) : Bool :=
  p.data.isPrefixOf s.data

/-- Boolean check that `p` is a suffix of `s`, at the character level. -/
def strEndsWith (p s : String) : Bool :=
  p.data.isSuffixOf s.data

/-- Split a character sequence into its lines (maximal newline-free
segments). -/
def splitLines : List Char → List (List Char)
  | [] => [[]]
  | c :: cs =>
    if c = '\n' then [] :: splitLines cs
    else
      match splitLines cs with
      | [] => [[c]]
      | x :: xs => (c :: x) :: xs

/-- Boolean check that some line of `s` begins with `# HELP`. -/
def containsHelpLine (s : String) : Bool :=
  (splitLines s.data).any (fun l => ("# HELP".data).isPrefixOf l)

/-- Modelled from the spec: the built-in `/health` route — always returns
success while the server is running, independent of every other
subsystem. -/
def healthRoute : TelemetryServerRoute :=
  { path := "/health", methods := [.GET], handler := fun _ => ⟨200, ""⟩ }

/-- Modelled from the spec: the built-in `/metrics` route — returns the
metrics exposition document for the registry. -/
def metricsRoute (reg : MetricsRegistry) : TelemetryServerRoute :=
  { path := "/metrics", methods := [.GET],
    handler := fun _ => ⟨200, renderMetrics reg⟩ }

/-- Modelled from the spec: the `/pprof/heap` route, registered only when
the profiler resolved to an active handle. -/
def pprofHeapRoute : TelemetryServerRoute :=
  { path := "/pprof/heap", methods := [.GET],
    handler := fun _ => ⟨200, "MAPPED_LIBRARIES: ..."⟩ }

/-- Modelled from the spec: the `/pprof/heap_stats` route, registered only
when the profiler resolved to an active handle. -/
def pprofHeapStatsRoute : TelemetryServerRoute :=
  { path := "/pprof/heap_stats", methods := [.GET],
    handler := fun _ => ⟨200, "Allocated: ..."⟩ }

/-- Modelled from the spec: the built-in part of the route table — health
and metrics always, the profiler routes only when the profiler is
active. -/
def baseRoutes (profilerActive : Bool) (reg : MetricsRegistry) :
    List TelemetryServerRoute :=
  [healthRoute, metricsRoute reg] ++
    (if profilerActive then [pprofHeapRoute, pprofHeapStatsRoute] else [])

/-- Modelled from the spec: the full route table — built-in routes first,
then the caller-supplied routes. -/
def buildRoutes (profilerActive : Bool) (reg : MetricsRegistry)
    (extra : List TelemetryServerRoute) : List TelemetryServerRoute :=
  baseRoutes profilerActive reg ++ extra

/-- Two method lists overlap when some method belongs to both. -/
def methodsOverlap (a b : List Method) : Bool :=
  a.any (fun m => b.contains m)

/-- Two routes conflict when they have an identical path and overlapping
method sets. -/
def routesConflict (a b : TelemetryServerRoute) : Bool :=
  a.path == b.path && methodsOverlap a.methods b.methods

/-- A route table has a conflict when two of its entries conflict. -/
def hasConflict : List TelemetryServerRoute → Bool
  | [] => false
  | r :: rs => rs.any (routesConflict r) || hasConflict rs

/-- Telemetry server settings (`TelemetryServerSettings`): enabled flag
and the socket address to bind, embedded as a string. -/
structure TelemetryServerSettings where
  enabled : Bool
  addr : String

/-- Memory profiler settings (`MemoryProfilerSettings`): enabled flag and
profiler-specific tuning fields (represented by one numeric field). -/
structure MemoryProfilerSettings where
  enabled : Bool
  sample_interval : Nat
deriving DecidableEq

/-- Telemetry settings (`TelemetrySettings`): server and profiler
sections. -/
structure TelemetrySettings where
  server : TelemetryServerSettings
  memory_profiler : MemoryProfilerSettings

/-- Construction-time errors of `init_with_server`. -/
inductive InitError where
  | routeConflict
  | bindFailure
deriving DecidableEq

/-- The value `init_with_server` returns: either a no-op task (server
disabled) or a running server, whose existence models the bound socket. -/
inductive ServerTask where
  | noop
  | running (addr : String) (routes : List TelemetryServerRoute)

/-- Modelled from the spec: `init_with_server` — if the server section is
disabled, a no-op task and no socket; otherwise the route table is built
and validated for conflicts before any socket is bound, and only on
success is the running (bound) server produced. -/
def init_with_server (settings : TelemetrySettings) (profilerActive : Bool)
    (reg : MetricsRegistry) (extra : List TelemetryServerRoute) :
    Except InitError ServerTask :=
  if settings.server.enabled = true then
    if hasConflict (buildRoutes profilerActive reg extra) = true then
      .error .routeConflict
    else
      .ok (.running settings.server.addr (buildRoutes profilerActive reg extra))
  else
    .ok .noop

/-- A route matches a request when the paths agree and the request method
is among the route's methods. -/
def routeMatches (req : Request) (r : TelemetryServerRoute) : Bool :=
  r.path == req.path && r.methods.contains req.method

/-- Modelled from the spec: request dispatch — the first matching route
handles the request; an unmatched request gets a not-found response. -/
def handleRequest (routes : List TelemetryServerRoute) (req : Request) :
    Response :=
  match routes.find? (routeMatches req) with
  | some r => r.handler req
  | none => ⟨404, ""⟩

/-- The native profiler handle, abstract. -/
inductive ProfilerHandle where
  | mk
deriving DecidableEq

/-- The result type of `MemoryProfiler::get_or_init_with`. -/
abbrev ProfilerResult := Except String (Option ProfilerHandle)

instance : DecidableEq ProfilerResult := fun a b =>
  match a, b with
  | .error x, .error y =>
    if h : x = y then isTrue (by rw [h])
    else isFalse (fun hc => h (by cases hc; rfl))
  | .error _, .ok _ => isFalse (fun hc => Except.noConfusion hc)
  | .ok _, .error _ => isFalse (fun hc => Except.noConfusion hc)
  | .ok x, .ok y =>
    if h : x = y then isTrue (by rw [h])
    else isFalse (fun hc => h (by cases hc; rfl))

/-- The process-wide once-guarded cell holding the profiler's resolved
outcome: `none` before the first call, `some r` once resolved. -/
structure ProfilerCell where
  resolved : Option ProfilerResult
deriving DecidableEq

/-- Modelled from the spec: the outcome the first call resolves —
disabled settings give `Ok(None)`; enabled settings give `Ok(Some handle)`
when the platform capability is present and `Ok(None)` (non-fatal
degrade) when it is not. -/
def resolveProfiler (s : MemoryProfilerSettings) (capability : Bool) :
    ProfilerResult :=
  if s.enabled = true then
    if capability = true then .ok (some .mk) else .ok none
  else
    .ok none

/-- Modelled from the spec: `MemoryProfiler::get_or_init_with` — a
lazily-resolved singleton: the first call resolves the outcome and stores
it in the once cell; every later call returns the stored outcome
unchanged, regardless of its settings argument. -/
def get_or_init_with (s : MemoryProfilerSettings) (capability : Bool)
    (st : ProfilerCell) : ProfilerResult × ProfilerCell :=
  match st.resolved with
  | some r => (r, st)
  | none =>
    let r := resolveProfiler s capability
    (r, ⟨some r⟩)

/-- Run a sequence of `get_or_init_with` calls, collecting results and
threading the cell. -/
def runCalls (args : List MemoryProfilerSettings) (capability : Bool)
    (st : ProfilerCell) : List ProfilerResult × ProfilerCell :=
  match args with
  | [] => ([], st)
  | s :: rest =>
    let step := get_or_init_with s capability st
    let tail := runCalls rest capability step.2
    (step.1 :: tail.1, tail.2)

/-- The empty character list is a prefix of every list. -/
theorem nil_isPrefixOf (l : List Char) : ([] : List Char).isPrefixOf l = true := by
  cases l <;> rfl

/-- A character list is a prefix of itself followed by anything. -/
theorem isPrefixOf_append_self (l₁ l₂ : List Char) :
    l₁.isPrefixOf (l₁ ++ l₂) = true := by
  induction l₁ with
  | nil => exact nil_isPrefixOf l₂
  | cons c cs ih => simp [List.isPrefixOf, ih]

/-- Extending the larger list on the right preserves `isPrefixOf`. -/
theorem isPrefixOf_append_extend (x y z : List Char)
    (h : x.isPrefixOf y = true) : x.isPrefixOf (y ++ z) = true := by
  induction x generalizing y with
  | nil => exact nil_isPrefixOf _
  | cons c cs ih =>
    cases y with
    | nil => exact absurd h (by simp [List.isPrefixOf])
    | cons d ds =>
      simp only [List.isPrefixOf, Bool.and_eq_true] at h
      simp only [List.cons_append, List.isPrefixOf, Bool.and_eq_true]
      exact ⟨h.1, ih ds h.2⟩

/-- Transitivity of `isPrefixOf` on character lists. -/
theorem isPrefixOf_trans (x y z : List Char)
    (h1 : x.isPrefixOf y = true) (h2 : y.isPrefixOf z = true) :
    x.isPrefixOf z = true := by
  induction x generalizing y z with
  | nil => exact nil_isPrefixOf _
  | cons c cs ih =>
    cases y with
    | nil => exact absurd h1 (by simp [List.isPrefixOf])
    | cons d ds =>
      cases z with
      | nil => exact absurd h2 (by simp [List.isPrefixOf])
      | cons e es =>
        simp only [List.isPrefixOf, Bool.and_eq_true] at h1 h2
        have hcd : c = d := eq_of_beq h1.1
        have hde : d = e := eq_of_beq h2.1
        simp only [List.isPrefixOf, Bool.and_eq_true]
        exact ⟨by rw [hcd, hde]; exact beq_self_eq_true e, ih ds es h1.2 h2.2⟩

/-- A string is a suffix of anything appended in front of it. -/
theorem strEndsWith_append (e b c : String)
    (h : strEndsWith e c = true) : strEndsWith e (b ++ c) = true := by
  unfold strEndsWith at h ⊢
  unfold List.isSuffixOf at h ⊢
  rw [String.data_append, List.reverse_append]
  exact isPrefixOf_append_extend _ _ _ h

/-- Every string ends with itself. -/
theorem strEndsWith_self (e : String) : strEndsWith e e = true := by
  unfold strEndsWith List.isSuffixOf
  have h := isPrefixOf_append_self e.data.reverse []
  rw [List.append_nil] at h
  exact h

/-- The function `splitLines` never returns the empty list of lines. -/
theorem splitLines_ne_nil (l : List Char) : splitLines l ≠ [] := by
  cases l with
  | nil => simp [splitLines]
  | cons c cs =>
    by_cases h : c = '\n'
    · simp [splitLines, h]
    · simp only [splitLines, if_neg h]
      cases splitLines cs with
      | nil => simp
      | cons x xs => simp

/-- If a newline-free chunk `p` starts a character sequence, the first
line of the sequence starts with `p`. -/
theorem splitLines_head_begins (p rest : List Char) (hnl : '\n' ∉ p) :
    ∃ x xs, splitLines (p ++ rest) = x :: xs ∧ p.isPrefixOf x = true := by
  induction p with
  | nil =>
    cases hs : splitLines rest with
    | nil => exact absurd hs (splitLines_ne_nil rest)
    | cons x xs => exact ⟨x, xs, by simpa using hs, nil_isPrefixOf x⟩
  | cons c cs ih =>
    have hc : ¬ c = '\n' := fun h => hnl (h ▸ List.mem_cons_self c cs)
    have hcs : '\n' ∉ cs := fun h => hnl (List.mem_cons_of_mem c h)
    obtain ⟨x, xs, hx, hpre⟩ := ih hcs
    refine ⟨c :: x, xs, ?_, ?_⟩
    · simp only [List.cons_append, splitLines, if_neg hc, List.append_eq, hx]
    · simp [List.isPrefixOf, hpre]

/-- The metrics exposition document always ends with the sentinel line
`# EOF` and a newline. -/
theorem renderMetrics_ends_eof (reg : MetricsRegistry) :
    strEndsWith "# EOF\n" (renderMetrics reg) = true := by
  unfold renderMetrics
  induction reg.metrics with
  | nil => exact strEndsWith_self "# EOF\n"
  | cons m ms ih => exact strEndsWith_append _ _ _ ih

/-- When at least one metric is registered, the exposition document has a
line beginning with `# HELP`. -/
theorem renderMetrics_has_help (reg : MetricsRegistry)
    (hne : reg.metrics ≠ []) :
    containsHelpLine (renderMetrics reg) = true := by
  unfold containsHelpLine
  cases hm : reg.metrics with
  | nil => exact absurd hm hne
  | cons m ms =>
    have hbody : (renderMetrics reg).data =
        "# HELP ".data ++
          ((m.name ++ (" " ++ (m.help ++ ("\n" ++
            ("# TYPE " ++ (m.name ++ (" " ++ (m.mtype ++ ("\n" ++
              (m.name ++ (" " ++ (m.sample ++ "\n")))))))))))).data ++
            (ms.foldr (fun x acc => helpBlock x ++ acc) "# EOF\n").data) := by
      unfold renderMetrics
      rw [hm]
      simp only [List.foldr_cons, helpBlock, String.data_append,
        List.append_assoc]
    obtain ⟨x, xs, hx, hpre⟩ :=
      splitLines_head_begins "# HELP ".data _ (by decide)
    rw [hbody, hx]
    have hx' : ("# HELP".data).isPrefixOf x = true :=
      isPrefixOf_trans _ _ _ (by decide) hpre
    simp [List.any_cons, hx']

/-- Unfolding of a successful enabled construction: the task runs the
built route table and that table has no conflict. -/
theorem init_ok_running (settings : TelemetrySettings) (pa : Bool)
    (reg : MetricsRegistry) (extra : List TelemetryServerRoute)
    (addr : String) (routes : List TelemetryServerRoute)
    (h : init_with_server settings pa reg extra = .ok (.running addr routes)) :
    routes = buildRoutes pa reg extra ∧
      hasConflict (buildRoutes pa reg extra) = false := by
  unfold init_with_server at h
  by_cases hen : settings.server.enabled = true
  · rw [if_pos hen] at h
    by_cases hc : hasConflict (buildRoutes pa reg extra) = true
    · rw [if_pos hc] at h
      exact Except.noConfusion h
    · rw [if_neg hc] at h
      have hrt := Except.ok.inj h
      cases hrt
      refine ⟨rfl, ?_⟩
      simp only [Bool.not_eq_true] at hc
      exact hc
  · rw [if_neg hen] at h
    exact ServerTask.noConfusion (Except.ok.inj h)

/-- If a route table is conflict-free and contains a route matching a
request, dispatch finds exactly that route. -/
theorem find_matching_unique (req : Request) :
    ∀ (l : List TelemetryServerRoute), hasConflict l = false →
      ∀ r ∈ l, routeMatches req r = true →
        l.find? (routeMatches req) = some r := by
  intro l
  induction l with
  | nil => intro _ r hr; exact absurd hr (by simp)
  | cons x xs ih =>
    intro hc r hr hm
    have hc' : xs.any (routesConflict x) = false ∧ hasConflict xs = false := by
      simpa [hasConflict] using hc
    rcases List.mem_cons.mp hr with heq | hmem
    · subst heq
      exact List.find?_cons_of_pos xs hm
    · by_cases hx : routeMatches req x = true
      · exfalso
        have hconf : routesConflict x r = true := by
          simp only [routeMatches, Bool.and_eq_true] at hx hm
          have hxp : x.path = req.path := eq_of_beq hx.1
          have hrp : r.path = req.path := eq_of_beq hm.1
          have hmx : req.method ∈ x.methods := by simpa using hx.2
          have hmr : r.methods.contains req.method = true := hm.2
          simp only [routesConflict, Bool.and_eq_true]
          constructor
          · rw [hxp, hrp]
            exact beq_self_eq_true req.path
          · exact List.any_eq_true.mpr ⟨req.method, hmx, hmr⟩
        have := List.any_eq_false.mp hc'.1 r hmem
        exact this hconf
      · rw [List.find?_cons_of_neg xs hx]
        exact ih hc'.2 r hmem hm

/-- Appending on the left preserves a conflict. -/
theorem hasConflict_append_right (xs ys : List TelemetryServerRoute)
    (h : hasConflict ys = true) : hasConflict (xs ++ ys) = true := by
  induction xs with
  | nil => simpa using h
  | cons x l ih =>
    simp only [List.cons_append, hasConflict, List.append_eq, ih, Bool.or_true]

/-- C6: while the server is running, a GET request to `/metrics` gets
status 200 and a body with at least one line beginning `# HELP` that
ends exactly with the sentinel line `# EOF` plus newline. -/
theorem metrics_endpoint_format (settings : TelemetrySettings) (pa : Bool)
    (reg : MetricsRegistry) (extra : List TelemetryServerRoute)
    (addr : String) (routes : List TelemetryServerRoute)
    (hinit : init_with_server settings pa reg extra = .ok (.running addr routes))
    (hne : reg.metrics ≠ []) :
    (handleRequest routes ⟨"/metrics", .GET⟩).status = 200 ∧
      containsHelpLine (handleRequest routes ⟨"/metrics", .GET⟩).body = true ∧
      strEndsWith "# EOF\n" (handleRequest routes ⟨"/metrics", .GET⟩).body
        = true := by
  obtain ⟨hroutes, -⟩ := init_ok_running settings pa reg extra addr routes hinit
  subst hroutes
  have hneg : ¬ routeMatches ⟨"/metrics", .GET⟩ healthRoute = true := by decide
  have hpos : routeMatches ⟨"/metrics", .GET⟩ (metricsRoute reg) = true := rfl
  have hdisp : handleRequest (buildRoutes pa reg extra) ⟨"/metrics", .GET⟩ =
      ⟨200, renderMetrics reg⟩ := by
    unfold handleRequest buildRoutes baseRoutes
    simp only [List.cons_append, List.nil_append]
    rw [List.find?_cons_of_neg _ hneg, List.find?_cons_of_pos _ hpos]
    rfl
  rw [hdisp]
  exact ⟨rfl, renderMetrics_has_help reg hne, renderMetrics_ends_eof reg⟩

/-- Sample registry with one registered metric, for concrete evaluation. -/
def sampleReg : MetricsRegistry :=
  ⟨[{ name := "requests_total", help := "Total requests.",
      mtype := "counter", sample := "42" }]⟩

/-- Sample telemetry settings with the server enabled, for concrete
evaluation. -/
def sampleSettings : TelemetrySettings :=
  { server := { enabled := true, addr := "127.0.0.1:1337" },
    memory_profiler := { enabled := true, sample_interval := 0 } }

/-- Witness for C6 on a concrete running server with one metric. -/
theorem metrics_endpoint_format_witness :
    init_with_server sampleSettings true sampleReg [] =
        .ok (.running "127.0.0.1:1337" (buildRoutes true sampleReg [])) ∧
      sampleReg.metrics ≠ [] ∧
      (handleRequest (buildRoutes true sampleReg []) ⟨"/metrics", .GET⟩).status
          = 200 ∧
      containsHelpLine
          (handleRequest (buildRoutes true sampleReg [])
            ⟨"/metrics", .GET⟩).body = true ∧
      strEndsWith "# EOF\n"
          (handleRequest (buildRoutes true sampleReg [])
            ⟨"/metrics", .GET⟩).body = true := by
  refine ⟨rfl, List.cons_ne_nil _ _, ?_⟩
  exact metrics_endpoint_format sampleSettings true sampleReg []
    "127.0.0.1:1337" (buildRoutes true sampleReg []) rfl
    (List.cons_ne_nil _ _)

/-- C7: while the server is running, a GET request to `/health` gets
status 200, whatever the profiler state, metrics registry and caller
routes are. -/
theorem health_endpoint_ok (settings : TelemetrySettings) (pa : Bool)
    (reg : MetricsRegistry) (extra : List TelemetryServerRoute)
    (addr : String) (routes : List TelemetryServerRoute)
    (hinit : init_with_server settings pa reg extra = .ok (.running addr routes)) :
    (handleRequest routes ⟨"/health", .GET⟩).status = 200 := by
  obtain ⟨hroutes, -⟩ := init_ok_running settings pa reg extra addr routes hinit
  subst hroutes
  have hpos : routeMatches ⟨"/health", .GET⟩ healthRoute = true := by decide
  unfold handleRequest buildRoutes baseRoutes
  simp only [List.cons_append, List.nil_append]
  rw [List.find?_cons_of_pos _ hpos]
  rfl

/-- Witness for C7 on a concrete running server. -/
theorem health_endpoint_ok_witness :
    init_with_server sampleSettings false sampleReg [] =
        .ok (.running "127.0.0.1:1337" (buildRoutes false sampleReg [])) ∧
      (handleRequest (buildRoutes false sampleReg [])
        ⟨"/health", .GET⟩).status = 200 :=
  ⟨rfl, health_endpoint_ok sampleSettings false sampleReg []
    "127.0.0.1:1337" (buildRoutes false sampleReg []) rfl⟩

/-- C8: if a caller route on path `/custom-route` with method GET whose
handler answers body "Hello" is among the extra routes of a successful
construction, a GET request to `/custom-route` answers body "Hello". -/
theorem custom_route_dispatch (settings : TelemetrySettings) (pa : Bool)
    (reg : MetricsRegistry) (extra : List TelemetryServerRoute)
    (addr : String) (routes : List TelemetryServerRoute)
    (r : TelemetryServerRoute)
    (hinit : init_with_server settings pa reg extra = .ok (.running addr routes))
    (hr : r ∈ extra) (hpath : r.path = "/custom-route")
    (hm : r.methods = [.GET])
    (hh : ∀ q, (r.handler q).body = "Hello") :
    (handleRequest routes ⟨"/custom-route", .GET⟩).body = "Hello" := by
  obtain ⟨hroutes, hnc⟩ := init_ok_running settings pa reg extra addr routes hinit
  subst hroutes
  have hmem : r ∈ buildRoutes pa reg extra :=
    List.mem_append_right _ hr
  have hmatch : routeMatches ⟨"/custom-route", .GET⟩ r = true := by
    simp only [routeMatches, Bool.and_eq_true]
    constructor
    · rw [hpath]; rfl
    · rw [hm]; rfl
  have hfind := find_matching_unique ⟨"/custom-route", .GET⟩
    (buildRoutes pa reg extra) hnc r hmem hmatch
  unfold handleRequest
  rw [hfind]
  exact hh _

/-- The caller route of the repository's test: GET `/custom-route`
answering "Hello". -/
def customRoute : TelemetryServerRoute :=
  { path := "/custom-route", methods := [.GET],
    handler := fun _ => ⟨200, "Hello"⟩ }

/-- Witness for C8 on a concrete running server with the test's caller
route. -/
theorem custom_route_dispatch_witness :
    init_with_server sampleSettings true sampleReg [customRoute] =
        .ok (.running "127.0.0.1:1337" (buildRoutes true sampleReg [customRoute])) ∧
      (handleRequest (buildRoutes true sampleReg [customRoute])
        ⟨"/custom-route", .GET⟩).body = "Hello" :=
  ⟨rfl, custom_route_dispatch sampleSettings true sampleReg [customRoute]
    "127.0.0.1:1337" (buildRoutes true sampleReg [customRoute]) customRoute
    rfl (List.mem_cons_self _ _) rfl rfl (fun _ => rfl)⟩

/-- C9: when the caller routes contain two entries with an identical path
and overlapping method sets, construction of an enabled server fails with
the route-conflict error; no running (socket-bound) task is produced. -/
theorem conflicting_routes_rejected (settings : TelemetrySettings)
    (pa : Bool) (reg : MetricsRegistry)
    (l₁ l₂ l₃ : List TelemetryServerRoute) (r₁ r₂ : TelemetryServerRoute)
    (hen : settings.server.enabled = true)
    (hpath : r₁.path = r₂.path)
    (hov : methodsOverlap r₁.methods r₂.methods = true) :
    init_with_server settings pa reg (l₁ ++ r₁ :: (l₂ ++ r₂ :: l₃)) =
      .error .routeConflict := by
  have hconf : routesConflict r₁ r₂ = true := by
    simp only [routesConflict, Bool.and_eq_true]
    exact ⟨by rw [hpath]; exact beq_self_eq_true r₂.path, hov⟩
  have hmid : hasConflict (r₁ :: (l₂ ++ r₂ :: l₃)) = true := by
    have hany : (l₂ ++ r₂ :: l₃).any (routesConflict r₁) = true :=
      List.any_eq_true.mpr
        ⟨r₂, List.mem_append_right _ (List.mem_cons_self _ _), hconf⟩
    simp only [hasConflict, hany, Bool.true_or]
  have hextra : hasConflict (l₁ ++ r₁ :: (l₂ ++ r₂ :: l₃)) = true :=
    hasConflict_append_right _ _ hmid
  have hall : hasConflict
      (buildRoutes pa reg (l₁ ++ r₁ :: (l₂ ++ r₂ :: l₃))) = true :=
    hasConflict_append_right _ _ hextra
  unfold init_with_server
  rw [if_pos hen, if_pos hall]

/-- A second GET route on `/custom-route`, conflicting with the first. -/
def customRouteClash : TelemetryServerRoute :=
  { path := "/custom-route", methods := [.GET, .POST],
    handler := fun _ => ⟨200, "Other"⟩ }

/-- Witness for C9 on two concrete conflicting caller routes. -/
theorem conflicting_routes_rejected_witness :
    sampleSettings.server.enabled = true ∧
      customRoute.path = customRouteClash.path ∧
      methodsOverlap customRoute.methods customRouteClash.methods = true ∧
      init_with_server sampleSettings true sampleReg
          [customRoute, customRouteClash] = .error .routeConflict := by
  refine ⟨rfl, rfl, by decide, ?_⟩
  exact conflicting_routes_rejected sampleSettings true sampleReg
    [] [] [] customRoute customRouteClash rfl rfl (by decide)

/-- After resolution, further calls leave the cell untouched. -/
theorem get_or_init_resolved (s : MemoryProfilerSettings) (cap : Bool)
    (r : ProfilerResult) :
    get_or_init_with s cap ⟨some r⟩ = (r, ⟨some r⟩) := rfl

/-- Any call sequence starting from a resolved cell returns the resolved
result every time and never changes the cell. -/
theorem runCalls_resolved (args : List MemoryProfilerSettings) (cap : Bool)
    (r : ProfilerResult) :
    runCalls args cap ⟨some r⟩ = (args.map (fun _ => r), ⟨some r⟩) := by
  induction args with
  | nil => rfl
  | cons s rest ih =>
    simp only [runCalls, get_or_init_resolved, ih, List.map_cons]

/-- C10: after a first call to `get_or_init_with`, every later call —
whatever its settings argument — returns the result the first call
resolved, and the profiler cell is never changed again (no
reinitialization). -/
theorem profiler_idempotent (s₀ : MemoryProfilerSettings)
    (args : List MemoryProfilerSettings) (cap : Bool) :
    ((runCalls args cap (get_or_init_with s₀ cap ⟨none⟩).2).1.all
        (fun r => r == (get_or_init_with s₀ cap ⟨none⟩).1)) = true ∧
      (runCalls args cap (get_or_init_with s₀ cap ⟨none⟩).2).2 =
        (get_or_init_with s₀ cap ⟨none⟩).2 := by
  have hfst : get_or_init_with s₀ cap ⟨none⟩ =
      (resolveProfiler s₀ cap, ⟨some (resolveProfiler s₀ cap)⟩) := rfl
  rw [hfst]
  rw [runCalls_resolved args cap (resolveProfiler s₀ cap)]
  constructor
  · induction args with
    | nil => rfl
    | cons s rest ih =>
      simp only [List.map_cons, List.all_cons, ih, Bool.and_true,
        beq_self_eq_true]
  · rfl

end Bedrock
